import Mathlib

/-!
Verification of the out-of-core data layer of the organoid-classification
repository (src/src/models/lib/data.py) against its specification.

The Python source is shallowly embedded: CSV files become lists of lines,
a line is the list of its comma-separated tokens, numeric parsing returns
an option, and every fallible operation returns an option (errors raised
by the source become none).  Machine floats are modelled by rationals.
-/

/-- Model of one comma-separated CSV token: either a numeric value or a raw
string.  The cast in the source, interpreting every token of a line as
float32 at once, fails on any string token. -/
inductive Token where
  | num (q : ℚ)
  | str (s : String)
deriving DecidableEq

/-- Interpreting a single token as a number, as the float cast on line 79 of
data.py does token-wise; a non-numeric token makes the whole cast fail. -/
def parseTok : Token → Option ℚ
  | Token.num q => some q
  | Token.str _ => none

/-- A CSV line, already split on commas. -/
abbrev Line := List Token

/-- The value linecache.getline produces on any error is the empty string;
splitting it on commas gives the single empty token. -/
def emptyLine : Line := [Token.str ""]

/-- Model of linecache.getline: line numbers are 1-based, and any request
outside 1..#lines returns the empty string (hence the single empty token). -/
def getline (file : List Line) (n : ℕ) : Line :=
  if 1 ≤ n ∧ n ≤ file.length then file.getD (n - 1) emptyLine else emptyLine

/-- Casting a whole line to a numeric vector (np.array(line.split(','),
dtype=np.float32) on line 79 of data.py): succeeds only when every token is
numeric. -/
def parseLine (l : Line) : Option (List ℚ) := l.mapM parseTok

/-- Maximum entry of a vector, as numpy's .max(); only used on the nonempty
vectors the source applies it to. -/
def listMax : List ℚ → ℚ
  | [] => 0
  | x :: xs => xs.foldl max x

/-- Embedding of a constructed GeneExpressionData instance (data.py lines
31-54): the data file as its list of lines, the retained label rows (pairs of
index-column value and class label, already filtered by the indices argument
and renumbered by reset_index), the skip count and the normalize flag. -/
structure GeneExpressionData where
  file : List Line
  labeldf : List (ℕ × String)
  skip : ℕ
  normalize : Bool

/-- Construction of the retained label table (data.py lines 51-54): with no
indices the whole label file is kept; otherwise the rows at the given
positions are selected in order (pandas .loc raises on a missing key, hence
the option). -/
def initLabeldf (full : List (ℕ × String)) (indices : Option (List ℕ)) :
    Option (List (ℕ × String)) :=
  match indices with
  | none => some full
  | some idxs => idxs.mapM (fun i => full.get? i)

/-- Number of samples, data.py lines 90-91: the length of the retained label
table. -/
def GeneExpressionData.len (ds : GeneExpressionData) : ℕ := ds.labeldf.length

/-- Integer-index path of GeneExpressionData.__getitem__ (data.py lines
66-88) with the default cast=True: look up the retained label row, fetch the
file line at the index-column value plus skip via linecache, cast every token
to a number, optionally divide by the row's own maximum, and pair with the
label.  A missing label row (pandas KeyError) or a failed cast (ValueError)
is none. -/
def GeneExpressionData.getitem (ds : GeneExpressionData) (idx : ℕ) :
    Option (List ℚ × String) :=
  match ds.labeldf.get? idx with
  | none => none
  | some (cell, lab) =>
    match parseLine (getline ds.file (cell + ds.skip)) with
    | none => none
    | some data =>
      some ((if ds.normalize then data.map (fun x => x / listMax data) else data), lab)

/-- The cast=False path of __getitem__ (data.py line 81): the raw token list
of the fetched line is returned without any parsing.  (The source would fail
if normalize were combined with cast=False, since strings cannot be divided;
that combination is not modelled.) -/
def GeneExpressionData.getitemRaw (ds : GeneExpressionData) (idx : ℕ) :
    Option (Line × String) :=
  match ds.labeldf.get? idx with
  | none => none
  | some (cell, lab) => some (getline ds.file (cell + ds.skip), lab)

/-- __getitem__ applied to a Python int, which may be negative: after
reset_index the label table's keys are 0..n-1, so a negative key raises
KeyError (none). -/
def GeneExpressionData.getitemZ (ds : GeneExpressionData) (i : ℤ) :
    Option (List ℚ × String) :=
  if i < 0 then none else ds.getitem i.toNat

/-- Number of elements of Python's range(a, b, s) for s different from 0. -/
def pyRangeLen (a b s : ℤ) : ℕ :=
  if 0 < s then ((b - a + s - 1) / s).toNat else ((a - b + (-s) - 1) / (-s)).toNat

/-- Model of Python's range(a, b, s) for s different from 0. -/
def pyRange (a b s : ℤ) : List ℤ :=
  (List.range (pyRangeLen a b s)).map (fun k => a + s * k)

/-- Slice path of GeneExpressionData.__getitem__ (data.py lines 58-64): an
unbounded start or stop raises ValueError (none); otherwise step defaults to
1 (a zero step raises inside range) and the positions of
range(start, stop, step) are fetched one by one, any failure propagating. -/
def GeneExpressionData.getitemSlice (ds : GeneExpressionData)
    (start stop step : Option ℤ) : Option (List (List ℚ × String)) :=
  match start, stop with
  | some a, some b =>
    let s := step.getD 1
    if s = 0 then none
    else (pyRange a b s).mapM (fun i => ds.getitemZ i)
  | _, _ => none

/-- Lexicographic strict comparison of two character lists, the order Python
and numpy use when comparing strings (code-point by code-point, a strict
prefix coming first). -/
def lexLt : List Char → List Char → Bool
  | [], [] => false
  | [], _ :: _ => true
  | _ :: _, [] => false
  | a :: as, b :: bs => if a < b then true else if a = b then lexLt as bs else false

/-- The matching non-strict string comparison, on the underlying character
lists. -/
def strLe (a b : String) : Bool := !(lexLt b.data a.data)

/-- Inserting an element into a sorted list, keeping it before the first
element it compares at-or-below. -/
def insertSorted (le : α → α → Bool) (a : α) : List α → List α
  | [] => [a]
  | b :: bs => if le a b then a :: b :: bs else b :: insertSorted le a bs

/-- Insertion sort; on a total order this produces the unique ascending
rearrangement, which is all np.sort's semantics the claims need. -/
def sortBy (le : α → α → Bool) : List α → List α
  | [] => []
  | a :: as => insertSorted le a (sortBy le as)

/-- The sorted, duplicate-free common values of two gene lists, as
np.intersect1d computes them (data.py line 191). -/
def sortedCommon (curr ref : List String) : List String :=
  sortBy strLe ((curr.filter (fun g => decide (g ∈ ref))).dedup)

/-- The second component of np.intersect1d(currgenes, refgenes,
return_indices=True) (data.py lines 191-192): for each common value in
sorted order, the position of its first occurrence in currgenes. -/
def intersect1dIndices (curr ref : List String) : List ℕ :=
  (sortedCommon curr ref).map (fun v => curr.indexOf v)

/-- Embedding of clean_sample (data.py lines 171-198) for a one-dimensional
sample: the intersection indices are computed, the sample values are sorted
numerically by np.sort, and np.take selects the index positions from the
value-sorted vector. -/
def clean_sample (sample : List ℚ) (refgenes currgenes : List String) : List ℚ :=
  let indices := intersect1dIndices currgenes refgenes
  let sorted := sortBy (fun a b => decide (a ≤ b)) sample
  indices.map (fun j => sorted.getD j 0)

/-- The permutation of positions that sorts a column-name list, written as
the sorted list of positions compared through their names. -/
def argsortCols (cols : List String) : List ℕ :=
  sortBy (fun i j => strLe (cols.getD i "") (cols.getD j "")) (List.range cols.length)

/-- Modelled from the spec (section 4.3): the alignment rule the claim
states, kept separate from the source's clean_sample for comparison.  The
row values are reordered by the same permutation that sorts the native
column names, and the positions of the sorted native names that appear in
the reference set are selected. -/
def alignBySpecRule (sample : List ℚ) (refgenes currgenes : List String) : List ℚ :=
  let perm := argsortCols currgenes
  let sortedNames := perm.map (fun i => currgenes.getD i "")
  let sortedVals := perm.map (fun i => sample.getD i 0)
  ((List.range perm.length).filter
      (fun j => decide (sortedNames.getD j "" ∈ refgenes))).map
    (fun j => sortedVals.getD j 0)

/-- Upper-casing a token given as its character list (str.upper on the
ASCII gene names of the data at hand). -/
def upperChars (l : List Char) : List Char := l.map Char.toUpper

/-- Stripping leading and trailing whitespace from a token given as its
character list (str.strip). -/
def trimChars (l : List Char) : List Char :=
  ((l.dropWhile Char.isWhitespace).reverse.dropWhile Char.isWhitespace).reverse

/-- The per-token computation of data.py line 100, on a token given as its
character list: x.split('|')[0] is the portion before the first '|'
(the whole token when none occurs), then upper-cased, then stripped. -/
def cleanToken (x : List Char) : List Char :=
  trimChars (upperChars (x.takeWhile (fun c => c != '|')))

/-- The features list of data.py lines 97-102 as a function of the
comma-split header tokens: every token is cleaned by cleanToken.  Note the
source body reads the header through self.getline, an attribute the class
never defines (the module function is linecache.getline), so executing the
source raises AttributeError before reaching this computation; this
definition models the computation of line 100 itself. -/
def featureTokens (header : List (List Char)) : List (List Char) :=
  header.map cleanToken

/-- The batch count FastTensorDataLoader.__init__ computes with divmod
(data.py lines 146-150); meaningful for a positive batch size (Python's
divmod raises on zero). -/
def nBatches (L bs : ℕ) : ℕ :=
  let q := L / bs
  let r := L % bs
  if 0 < r then q + 1 else q

/-- One full unshuffled pass of FastTensorDataLoader starting at cursor i
(data.py lines 152-166): a tensor is a list, a batch is the tuple of the
slices t[i : i+bs] of every stored tensor, iteration stops once the cursor
reaches the length of the first tensor.  A zero batch size never terminates
in the source, so the pass is defined (as empty) only formally there. -/
def fastPass (tensors : List (List α)) (bs : ℕ) (i : ℕ) : List (List (List α)) :=
  if _h : bs = 0 ∨ (tensors.headD []).length ≤ i then []
  else (tensors.map (fun t => (t.drop i).take bs)) :: fastPass tensors bs (i + bs)
termination_by (tensors.headD []).length - i
decreasing_by omega

/-- The test-subset size sklearn's train_test_split gives a fractional
test_size: the ceiling of the fraction times the sample count. -/
def testCount (t : ℚ) (n : ℕ) : ℕ := (Int.ceil (t * n)).toNat

/-- Model of sklearn.model_selection.train_test_split on a list: the RNG's
shuffled order is passed explicitly as the shuffled argument (every
realizable stratified draw is some permutation of l), the test subset is its
first ceil(t times n) elements and the train subset the rest; the pair is
returned (train, test) as in sklearn. -/
def train_test_split (l : List α) (t : ℚ) (shuffled : List α) : List α × List α :=
  (shuffled.drop (testCount t l.length), shuffled.take (testCount t l.length))

/-- The two-stage split of generate_datasets (data.py lines 228-232) on one
label file: first split off a validation part of fraction t from the whole
set, then split off a test part of fraction t from the remaining train part;
the shuffled orders of the two sklearn calls are passed explicitly. -/
def generate_datasets (labels : List α) (t : ℚ) (p1 p2 : List α) :
    List α × List α × List α :=
  let s1 := train_test_split labels t p1
  let s2 := train_test_split s1.1 t p2
  (s2.1, s1.2, s2.2)

/-- A Python value of the collocate branch: either a dataset (a list of
label-row indices standing for the GeneExpressionData/ConcatDataset) or a
torch DataLoader wrapping whatever object it was constructed on.  Python's
dynamic typing lets a DataLoader wrap another DataLoader, so the embedding
must allow the nesting. -/
inductive PyObj (α : Type) where
  | dataset (d : List α)
  | loader (inner : PyObj α) (batch_size : ℕ)
deriving DecidableEq

/-- Indexing a Python object as torch's map-style fetch does
(self.dataset[i]): a dataset supports __getitem__, a DataLoader defines no
__getitem__, so indexing it raises TypeError (none). -/
def PyObj.getitem {α : Type} : PyObj α → ℕ → Option α
  | PyObj.dataset d, i => d.get? i
  | PyObj.loader _ _, _ => none

/-- The collocate=True branch of generate_loaders (data.py lines 356-371),
with the source's sequential rebinding: line 367 rebinds the name train to
DataLoader(train dataset), so the DataLoader constructors on lines 368-369
receive that train DataLoader, not the train dataset. -/
def generate_loaders_collocate (labels : List α) (t : ℚ) (p1 p2 : List α)
    (bs : ℕ) : PyObj α × PyObj α × PyObj α :=
  let s := generate_datasets labels t p1 p2
  let train := PyObj.loader (PyObj.dataset s.1) bs
  let val := PyObj.loader train bs
  let test := PyObj.loader train bs
  (train, val, test)

/-! ## Helper lemmas -/

/-- takeWhile keeps the whole list when every element passes the test. -/
theorem takeWhile_eq_self_of_all (p : α → Bool) (l : List α)
    (h : ∀ a ∈ l, p a = true) : l.takeWhile p = l := by
  induction l with
  | nil => rfl
  | cons a as ih =>
    rw [List.takeWhile_cons, if_pos (h a (by simp))]
    rw [ih (fun x hx => h x (by simp [hx]))]

/-- takeWhile stops exactly at the first failing element. -/
theorem takeWhile_append_stop (p : α → Bool) (l1 : List α) (a : α) (l2 : List α)
    (h1 : ∀ x ∈ l1, p x = true) (h2 : p a = false) :
    (l1 ++ a :: l2).takeWhile p = l1 := by
  induction l1 with
  | nil => simp [List.takeWhile_cons, h2]
  | cons b bs ih =>
    rw [List.cons_append, List.takeWhile_cons, if_pos (h1 b (by simp))]
    rw [ih (fun x hx => h1 x (by simp [hx]))]

/-! ## Theorems for the claims -/

/-- C1: the source's clean_sample does reproduce the spec's round-trip
example (native columns B, A, C with row 10, 20, 30 yield 20, 10), but in
general it sorts the row values numerically (np.sort on line 195) instead of
reordering them by the permutation that sorts the native column names: at
row values 30, 20, 10 on the same columns the code returns 20, 10 while the
claimed name-permutation rule gives 20, 30, so gene B is paired with gene
C's value. -/
theorem clean_sample_sorts_values_numerically :
    clean_sample [10, 20, 30] ["A", "B"] ["B", "A", "C"] = [20, 10] ∧
    clean_sample [30, 20, 10] ["A", "B"] ["B", "A", "C"] = [20, 10] ∧
    alignBySpecRule [30, 20, 10] ["A", "B"] ["B", "A", "C"] = [20, 30] ∧
    clean_sample [30, 20, 10] ["A", "B"] ["B", "A", "C"] ≠
      alignBySpecRule [30, 20, 10] ["A", "B"] ["B", "A", "C"] :=
  ⟨by decide, by decide, by decide, by decide⟩

/-- C7 counterexample: with native columns X, Y and reference columns A, B
sharing no element, clean_sample does not fail: the computed alignment index
list is empty and the returned vector is empty.  No EmptyIntersection error
exists anywhere in the source. -/
theorem clean_sample_empty_intersection_no_failure :
    intersect1dIndices ["X", "Y"] ["A", "B"] = [] ∧
    clean_sample [1, 2] ["A", "B"] ["X", "Y"] = [] := by
  exact ⟨by decide, by decide⟩

/-- C7 amended: whenever the native and reference column sets share no
element, the alignment-map construction silently produces the empty index
list and clean_sample returns the empty vector, rather than failing. -/
theorem clean_sample_disjoint_gives_empty (curr ref : List String)
    (sample : List ℚ) (h : ∀ g ∈ curr, g ∉ ref) :
    intersect1dIndices curr ref = [] ∧ clean_sample sample ref curr = [] := by
  have hf : curr.filter (fun g => decide (g ∈ ref)) = [] := by
    rw [List.filter_eq_nil_iff]
    intro a ha
    simpa using h a ha
  refine ⟨?_, ?_⟩ <;>
    simp [intersect1dIndices, sortedCommon, clean_sample, hf, sortBy]

/-- Witness for the amended C7 statement at a concrete disjoint pair. -/
theorem clean_sample_disjoint_gives_empty_witness :
    intersect1dIndices ["P"] ["Q"] = [] ∧ clean_sample [5] ["Q"] ["P"] = [] :=
  clean_sample_disjoint_gives_empty ["P"] ["Q"] [5] (by decide)

/-- C8: the per-token feature-name computation of data.py line 100 takes the
portion of a header token before the first embedded separator (the whole
token when none occurs), upper-cases it and trims it.  The accessor itself
never runs in the source: its body reads self.getline, an attribute the
class does not define, so touching features raises AttributeError. -/
theorem features_token_extraction (pre post : List Char) (h : '|' ∉ pre) :
    cleanToken (pre ++ '|' :: post) = trimChars (upperChars pre) ∧
    ∀ x : List Char, '|' ∉ x → cleanToken x = trimChars (upperChars x) := by
  constructor
  · unfold cleanToken
    rw [takeWhile_append_stop _ _ _ _ (fun x hx => by
      simp only [bne_iff_ne, ne_eq, decide_eq_true_eq]
      exact fun hc => h (hc ▸ hx)) (by simp)]
  · intro x hx
    unfold cleanToken
    rw [takeWhile_eq_self_of_all _ _ (fun c hc => by
      simp only [bne_iff_ne, ne_eq, decide_eq_true_eq]
      exact fun hc2 => hx (hc2 ▸ hc))]

/-- Witness for C8 at a concrete header token. -/
theorem features_token_extraction_witness :
    cleanToken (" gene1".data ++ '|' :: "ens1".data) =
      trimChars (upperChars " gene1".data) ∧
    ∀ x : List Char, '|' ∉ x → cleanToken x = trimChars (upperChars x) :=
  features_token_extraction " gene1".data "ens1".data (by decide)

/-- C2: at every valid position p of a dataset, __getitem__ resolves the
index-column value of the p-th retained label row, fetches the file line at
that value plus skip (in linecache's 1-based line numbering), returns its
parsed values divided by their own maximum exactly when normalization is
configured, paired with that row's label; and the dataset length is the
number of retained label rows. -/
theorem getitem_valid_position (ds : GeneExpressionData) (p cell : ℕ)
    (lab : String) (vs : List ℚ)
    (hp : ds.labeldf.get? p = some (cell, lab))
    (hparse : parseLine (getline ds.file (cell + ds.skip)) = some vs) :
    p < ds.len ∧
    ds.getitem p =
      some ((if ds.normalize then vs.map (fun x => x / listMax vs) else vs), lab) ∧
    ds.len = ds.labeldf.length := by
  refine ⟨?_, ?_, rfl⟩
  · exact (List.get?_eq_some.mp hp).1
  · simp only [GeneExpressionData.getitem, hp, hparse]

/-- Witness for C2 on a concrete three-header-line file with normalization
configured. -/
theorem getitem_valid_position_witness :
    (0 : ℕ) < GeneExpressionData.len
      ⟨[[Token.str "h1"], [Token.str "h2"], [Token.str "g1|x,g2"],
        [Token.num 1, Token.num 2], [Token.num 3, Token.num 4]],
       [(1, "neuron")], 3, true⟩ ∧
    GeneExpressionData.getitem
      ⟨[[Token.str "h1"], [Token.str "h2"], [Token.str "g1|x,g2"],
        [Token.num 1, Token.num 2], [Token.num 3, Token.num 4]],
       [(1, "neuron")], 3, true⟩ 0 =
      some ((if (true : Bool) then [(1 : ℚ), 2].map (fun x => x / listMax [1, 2])
             else [1, 2]), "neuron") ∧
    GeneExpressionData.len
      ⟨[[Token.str "h1"], [Token.str "h2"], [Token.str "g1|x,g2"],
        [Token.num 1, Token.num 2], [Token.num 3, Token.num 4]],
       [(1, "neuron")], 3, true⟩ =
      ([((1 : ℕ), "neuron")] : List (ℕ × String)).length :=
  getitem_valid_position _ 0 1 "neuron" [1, 2] (by rfl) (by rfl)

/-- C6 counterexample: a requested row number lying inside the reserved
skip region does not make the read fail.  Here skip is 3, the stored row
number is 2 (within the first three lines under either counting convention),
and __getitem__ happily returns the parsed fifth file line, because the
+ skip offset lands on a data line.  No RowNotFound error exists in the
source. -/
theorem skip_region_row_returns_value :
    GeneExpressionData.getitem
      ⟨[[Token.str "h1"], [Token.str "h2"], [Token.str "h3"],
        [Token.num 5, Token.num 6], [Token.num 7, Token.num 8]],
       [(2, "a")], 3, false⟩ 0 = some ([7, 8], "a") := by
  decide

/-- C6 amended: a stored row number pointing past the end of the data file
makes linecache hand back the empty string, so the cast path fails (a
ValueError, not a RowNotFound) while the cast=False path returns the raw
single empty token as a value; and a row number inside the skip region is
not rejected at all, the + skip offset simply selects a later line. -/
theorem row_read_past_file (ds : GeneExpressionData) (p cell : ℕ)
    (lab : String) (hp : ds.labeldf.get? p = some (cell, lab))
    (hbig : ds.file.length < cell + ds.skip) :
    ds.getitem p = none ∧ ds.getitemRaw p = some (emptyLine, lab) := by
  have hline : getline ds.file (cell + ds.skip) = emptyLine := by
    unfold getline
    rw [if_neg]
    omega
  constructor
  · simp only [GeneExpressionData.getitem, hp, hline]
    rfl
  · simp only [GeneExpressionData.getitemRaw, hp, hline]

/-- Witness for the amended C6 statement on a one-line file. -/
theorem row_read_past_file_witness :
    GeneExpressionData.getitem ⟨[[Token.num 1]], [(5, "x")], 0, false⟩ 0 = none ∧
    GeneExpressionData.getitemRaw ⟨[[Token.num 1]], [(5, "x")], 0, false⟩ 0 =
      some (emptyLine, "x") :=
  row_read_past_file _ 0 5 "x" (by rfl) (by decide)

/-- C10: a slice whose start or stop is absent raises ValueError (none),
and a fully bounded slice returns exactly the per-position fetches over
Python's range(start, stop, step), step defaulting to 1. -/
theorem getitem_slice_spec (ds : GeneExpressionData) (a b s : ℤ) (hs : s ≠ 0) :
    (∀ sp st, ds.getitemSlice none sp st = none) ∧
    (∀ sa st, ds.getitemSlice sa none st = none) ∧
    ds.getitemSlice (some a) (some b) (some s) =
      (pyRange a b s).mapM (fun i => ds.getitemZ i) ∧
    ds.getitemSlice (some a) (some b) none =
      (pyRange a b 1).mapM (fun i => ds.getitemZ i) := by
  refine ⟨fun sp st => rfl, fun sa st => ?_, ?_, ?_⟩
  · cases sa <;> rfl
  · unfold GeneExpressionData.getitemSlice
    simp [hs]
  · rfl

/-- Witness for C10 on a concrete dataset and slice bounds. -/
theorem getitem_slice_spec_witness :
    (∀ sp st, GeneExpressionData.getitemSlice
        ⟨[[Token.num 1]], [(1, "x")], 0, false⟩ none sp st = none) ∧
    (∀ sa st, GeneExpressionData.getitemSlice
        ⟨[[Token.num 1]], [(1, "x")], 0, false⟩ sa none st = none) ∧
    GeneExpressionData.getitemSlice ⟨[[Token.num 1]], [(1, "x")], 0, false⟩
        (some 0) (some 1) (some 1) =
      (pyRange 0 1 1).mapM (fun i =>
        GeneExpressionData.getitemZ ⟨[[Token.num 1]], [(1, "x")], 0, false⟩ i) ∧
    GeneExpressionData.getitemSlice ⟨[[Token.num 1]], [(1, "x")], 0, false⟩
        (some 0) (some 1) none =
      (pyRange 0 1 1).mapM (fun i =>
        GeneExpressionData.getitemZ ⟨[[Token.num 1]], [(1, "x")], 0, false⟩ i) :=
  getitem_slice_spec _ 0 1 1 (by decide)

/-- C9 counterexample: on a concrete input the validation loader the
collocate branch returns does not wrap the concatenated train dataset — its
underlying object is the train DataLoader built on line 367 — and indexing
the train DataLoader (which every fetch through the validation or test
loader would do) always fails, since a DataLoader has no __getitem__. -/
theorem collocate_val_wraps_train_loader_not_dataset :
    (generate_loaders_collocate [0, 1] (1/2 : ℚ) [0, 1] [1] 4).2.1 ≠
      PyObj.loader (PyObj.dataset (generate_datasets [0, 1] (1/2 : ℚ) [0, 1] [1]).1) 4 ∧
    ∀ i, PyObj.getitem (generate_loaders_collocate [0, 1] (1/2 : ℚ) [0, 1] [1] 4).1 i =
      none := by
  refine ⟨fun h => ?_, fun _ => rfl⟩
  simp [generate_loaders_collocate] at h

/-- C9 amended: with collocate set, line 367 first rebinds the name train to
a DataLoader over the concatenated train dataset, so the constructors on
lines 368-369 build the validation and test loaders around that train
DataLoader itself — not around the validation or test splits, and not
around the train dataset either: a DataLoader defines no __getitem__, so
fetching any element through the validation or test loader's underlying
object fails with TypeError.  No returned loader reads the validation or
test split. -/
theorem collocate_loaders_wrap_train_loader {α : Type} (labels : List α)
    (t : ℚ) (p1 p2 : List α) (bs : ℕ) :
    (generate_loaders_collocate labels t p1 p2 bs).1 =
      PyObj.loader (PyObj.dataset (generate_datasets labels t p1 p2).1) bs ∧
    (generate_loaders_collocate labels t p1 p2 bs).2.1 =
      PyObj.loader (generate_loaders_collocate labels t p1 p2 bs).1 bs ∧
    (generate_loaders_collocate labels t p1 p2 bs).2.2 =
      PyObj.loader (generate_loaders_collocate labels t p1 p2 bs).1 bs ∧
    ∀ i, PyObj.getitem (generate_loaders_collocate labels t p1 p2 bs).1 i = none :=
  ⟨rfl, rfl, rfl, fun _ => rfl⟩

/-- Ceiling division satisfies the step recurrence the batch loop follows. -/
theorem ceil_div_rec (r bs : ℕ) (hbs : 0 < bs) (hr : 0 < r) :
    (r + bs - 1) / bs = (r - bs + bs - 1) / bs + 1 := by
  by_cases hc : r ≤ bs
  · have h1 : r + bs - 1 = (r - 1) + 1 * bs := by omega
    have h2 : r - bs = 0 := by omega
    rw [h1, Nat.add_mul_div_right _ _ hbs, h2]
    rw [Nat.div_eq_of_lt (by omega), Nat.div_eq_of_lt (by omega)]
  · have h1 : r + bs - 1 = (r - 1) + 1 * bs := by omega
    have h3 : r - 1 = (r - bs - 1) + 1 * bs := by omega
    have h2 : r - bs + bs - 1 = (r - bs - 1) + 1 * bs := by omega
    rw [h1, Nat.add_mul_div_right _ _ hbs, h3, Nat.add_mul_div_right _ _ hbs, h2,
      Nat.add_mul_div_right _ _ hbs]

/-- Number of batches a pass starting at cursor i produces. -/
theorem fastPass_length {α : Type} (tensors : List (List α)) (bs : ℕ)
    (hbs : 0 < bs) (L : ℕ) (hL : (tensors.headD []).length = L) (i : ℕ) :
    (fastPass tensors bs i).length = (L - i + bs - 1) / bs := by
  refine fastPass.induct tensors bs
    (motive := fun i => (fastPass tensors bs i).length = (L - i + bs - 1) / bs)
    ?_ ?_ i
  · intro j h
    rw [fastPass, dif_pos h]
    rcases h with h | h
    · omega
    · rw [hL] at h
      have h0 : L - j = 0 := by omega
      rw [h0, List.length_nil, Nat.div_eq_of_lt (by omega)]
  · intro j h ih
    rw [fastPass, dif_neg h]
    push_neg at h
    rw [hL] at h
    rw [List.length_cons, ih]
    have h2 : L - (j + bs) = L - j - bs := by omega
    rw [h2, ← ceil_div_rec (L - j) bs hbs (by omega)]

/-- Concatenating, per stored tensor, the slices of all batches from cursor
i onward recovers that tensor's elements from position i on. -/
theorem fastPass_join {α : Type} (tensors : List (List α)) (bs : ℕ)
    (hbs : 0 < bs) (L : ℕ) (hL : (tensors.headD []).length = L)
    (k : ℕ) (vs : List α) (hk : tensors.get? k = some vs) (hvs : vs.length = L)
    (i : ℕ) :
    ((fastPass tensors bs i).map (fun b => b.getD k [])).flatten = vs.drop i := by
  refine fastPass.induct tensors bs
    (motive := fun i =>
      ((fastPass tensors bs i).map (fun b => b.getD k [])).flatten = vs.drop i)
    ?_ ?_ i
  · intro j h
    rw [fastPass, dif_pos h]
    rcases h with h | h
    · omega
    · rw [hL] at h
      rw [List.map_nil, List.flatten_nil, List.drop_eq_nil_of_le (by omega)]
  · intro j h ih
    rw [fastPass, dif_neg h]
    rw [List.map_cons, List.flatten_cons, ih]
    have hproj : (tensors.map (fun t => (t.drop j).take bs)).getD k [] =
        (vs.drop j).take bs := by
      show ((tensors.map (fun t => (t.drop j).take bs)).get? k).getD [] = _
      rw [List.get?_map, hk]
      rfl
    rw [hproj]
    have hdd : vs.drop (j + bs) = (vs.drop j).drop bs := by
      rw [List.drop_drop, Nat.add_comm]
    rw [hdd, List.take_append_drop]

/-- Every slice of every batch has at most batch_size elements and none is
empty. -/
theorem fastPass_batch_sizes {α : Type} (tensors : List (List α)) (bs : ℕ)
    (L : ℕ) (hL : (tensors.headD []).length = L)
    (hlen : ∀ t ∈ tensors, t.length = L) (i : ℕ) :
    ∀ b ∈ fastPass tensors bs i, ∀ part ∈ b, part.length ≤ bs ∧ part ≠ [] := by
  refine fastPass.induct tensors bs
    (motive := fun i =>
      ∀ b ∈ fastPass tensors bs i, ∀ part ∈ b, part.length ≤ bs ∧ part ≠ [])
    ?_ ?_ i
  · intro j h b hb
    rw [fastPass, dif_pos h] at hb
    exact absurd hb (List.not_mem_nil b)
  · intro j h ih b hb part hpart
    rw [fastPass, dif_neg h] at hb
    push_neg at h
    rw [hL] at h
    rcases List.mem_cons.mp hb with rfl | hb
    ·
      rcases List.mem_map.mp hpart with ⟨t, ht, rfl⟩
      have htL : t.length = L := hlen t ht
      constructor
      · rw [List.length_take]
        omega
      · have hlen2 : ((t.drop j).take bs).length = min bs (L - j) := by
          rw [List.length_take, List.length_drop, htL]
        intro hemp
        rw [hemp] at hlen2
        simp at hlen2
        omega
    · exact ih b hb part hpart

/-- Every batch except possibly the final one consists of slices of exactly
batch_size elements. -/
theorem fastPass_full_batches {α : Type} (tensors : List (List α)) (bs : ℕ)
    (L : ℕ) (hL : (tensors.headD []).length = L)
    (hlen : ∀ t ∈ tensors, t.length = L) (i : ℕ) :
    ∀ j b, j + 1 < (fastPass tensors bs i).length →
      (fastPass tensors bs i).get? j = some b → ∀ part ∈ b, part.length = bs := by
  refine fastPass.induct tensors bs
    (motive := fun i =>
      ∀ j b, j + 1 < (fastPass tensors bs i).length →
        (fastPass tensors bs i).get? j = some b → ∀ part ∈ b, part.length = bs)
    ?_ ?_ i
  · intro x h j b hj hb
    rw [fastPass, dif_pos h] at hj
    simp at hj
  · intro x h ih j b hj hb part hpart
    rw [fastPass, dif_neg h] at hj hb
    push_neg at h
    rw [hL] at h
    cases j with
    | zero =>
      have hrest : fastPass tensors bs (x + bs) ≠ [] := by
        intro hnil
        rw [List.length_cons, hnil] at hj
        simp at hj
      have hcond : ¬(bs = 0 ∨ (tensors.headD []).length ≤ x + bs) := by
        intro hc
        exact hrest (by rw [fastPass, dif_pos hc])
      push_neg at hcond
      rw [hL] at hcond
      have hb2 : tensors.map (fun t => (t.drop x).take bs) = b := by
        simpa using hb
      subst hb2
      rcases List.mem_map.mp hpart with ⟨t, ht, rfl⟩
      have htL : t.length = L := hlen t ht
      rw [List.length_take, List.length_drop, htL]
      omega
    | succ j2 =>
      rw [List.length_cons] at hj
      exact ih j2 b (by omega) (by simpa using hb) part hpart

/-- The divmod batch count of __init__ agrees with ceiling division. -/
theorem ceil_div_eq_nBatches (L bs : ℕ) (h : 0 < bs) :
    (L + bs - 1) / bs = nBatches L bs := by
  unfold nBatches
  rcases Nat.eq_zero_or_pos L with rfl | hL0
  · simp [Nat.div_eq_of_lt (show bs - 1 < bs by omega)]
  · have h1 : L + bs - 1 = (L - 1) + 1 * bs := by omega
    rw [h1, Nat.add_mul_div_right _ _ h]
    have hsucc := Nat.succ_div (L - 1) bs
    have hLs : L - 1 + 1 = L := by omega
    rw [hLs] at hsucc
    by_cases hdvd : bs ∣ L
    · have hmod : L % bs = 0 := Nat.dvd_iff_mod_eq_zero.mp hdvd
      rw [if_neg (by omega), hsucc, if_pos hdvd]
    · have hmod : L % bs ≠ 0 := fun h0 =>
        hdvd (Nat.dvd_iff_mod_eq_zero.mpr h0)
      rw [if_pos (by omega), hsucc, if_neg hdvd]

/-- C3: an unshuffled full pass of FastTensorDataLoader over tensors of
common length L with positive batch size yields exactly ceil(L / B) batches
(the divmod count of __init__), whose per-tensor concatenation in order
equals the original tensor (no repeated, skipped or wrapped rows), every
batch being of size B except the possibly shorter nonempty final one. -/
theorem fast_loader_full_pass {α : Type} (tensors : List (List α)) (bs L : ℕ)
    (hbs : 0 < bs) (hne : tensors ≠ [])
    (hlen : ∀ t ∈ tensors, t.length = L) :
    (fastPass tensors bs 0).length = (L + bs - 1) / bs ∧
    (fastPass tensors bs 0).length = nBatches L bs ∧
    (∀ k vs, tensors.get? k = some vs →
      ((fastPass tensors bs 0).map (fun b => b.getD k [])).flatten = vs) ∧
    (∀ b ∈ fastPass tensors bs 0, ∀ part ∈ b, part.length ≤ bs ∧ part ≠ []) ∧
    (∀ j b, j + 1 < (fastPass tensors bs 0).length →
      (fastPass tensors bs 0).get? j = some b → ∀ part ∈ b, part.length = bs) := by
  have hL : (tensors.headD []).length = L := by
    rcases tensors with _ | ⟨t, ts⟩
    · exact absurd rfl hne
    · exact hlen t (by simp)
  refine ⟨?_, ?_, ?_, ?_, ?_⟩
  · simpa using fastPass_length tensors bs hbs L hL 0
  · have h0 := fastPass_length tensors bs hbs L hL 0
    rw [Nat.sub_zero] at h0
    rw [h0, ceil_div_eq_nBatches L bs hbs]
  · intro k vs hk
    have hvs : vs.length = L := hlen vs (List.get?_mem hk)
    simpa using fastPass_join tensors bs hbs L hL k vs hk hvs 0
  · exact fastPass_batch_sizes tensors bs L hL hlen 0
  · exact fastPass_full_batches tensors bs L hL hlen 0

/-- Two ten-element tensors, the boundary example of the spec (length 10,
batch size 4, batch sizes 4, 4, 2). -/
def demoTensors : List (List ℕ) :=
  [[0, 1, 2, 3, 4, 5, 6, 7, 8, 9], [10, 11, 12, 13, 14, 15, 16, 17, 18, 19]]

/-- Witness for C3 at the spec's boundary example. -/
theorem fast_loader_full_pass_witness :
    (fastPass demoTensors 4 0).length = (10 + 4 - 1) / 4 ∧
    (fastPass demoTensors 4 0).length = nBatches 10 4 ∧
    (∀ k vs, demoTensors.get? k = some vs →
      ((fastPass demoTensors 4 0).map (fun b => b.getD k [])).flatten = vs) ∧
    (∀ b ∈ fastPass demoTensors 4 0, ∀ part ∈ b, part.length ≤ 4 ∧ part ≠ []) ∧
    (∀ j b, j + 1 < (fastPass demoTensors 4 0).length →
      (fastPass demoTensors 4 0).get? j = some b → ∀ part ∈ b, part.length = 4) :=
  fast_loader_full_pass demoTensors 4 10 (by decide) (by decide) (by decide)

/-- Core partition fact: splitting a permutation of a duplicate-free list
into take and drop, then splitting a permutation of the kept part again,
yields three pairwise disjoint lists that together cover the original. -/
theorem two_stage_partition (l p1 p2 : List ℕ) (k1 k2 : ℕ)
    (hnd : l.Nodup) (h1 : p1.Perm l) (h2 : p2.Perm (p1.drop k1)) :
    (p2.drop k2).Disjoint (p1.take k1) ∧
    (p2.drop k2).Disjoint (p2.take k2) ∧
    (p1.take k1).Disjoint (p2.take k2) ∧
    ∀ x, x ∈ l ↔ (x ∈ p2.drop k2 ∨ x ∈ p1.take k1 ∨ x ∈ p2.take k2) := by
  have hp1 : p1.Nodup := h1.nodup_iff.mpr hnd
  have hA : (p1.drop k1).Nodup := (List.drop_sublist k1 p1).nodup hp1
  have hp2 : p2.Nodup := h2.nodup_iff.mpr hA
  have hd1 : (p1.take k1).Disjoint (p1.drop k1) := List.disjoint_take_drop hp1 le_rfl
  have hd2 : (p2.take k2).Disjoint (p2.drop k2) := List.disjoint_take_drop hp2 le_rfl
  have hsub : ∀ x ∈ p2, x ∈ p1.drop k1 := fun x hx => h2.subset hx
  refine ⟨?_, ?_, ?_, ?_⟩
  · intro x hxtr hxva
    exact hd1 hxva (hsub x (List.drop_subset k2 p2 hxtr))
  · intro x hxtr hxte
    exact hd2 hxte hxtr
  · intro x hxva hxte
    exact hd1 hxva (hsub x (List.take_subset k2 p2 hxte))
  · intro x
    constructor
    · intro hx
      have hx1 : x ∈ p1 := h1.mem_iff.mpr hx
      rw [← List.take_append_drop k1 p1, List.mem_append] at hx1
      rcases hx1 with hx1 | hx1
      · exact Or.inr (Or.inl hx1)
      · have hx2 : x ∈ p2 := h2.mem_iff.mpr hx1
        rw [← List.take_append_drop k2 p2, List.mem_append] at hx2
        rcases hx2 with hx2 | hx2
        · exact Or.inr (Or.inr hx2)
        · exact Or.inl hx2
    · intro hx
      have hp1l : ∀ y ∈ p1, y ∈ l := fun y hy => h1.subset hy
      rcases hx with hx | hx | hx
      · exact hp1l x (List.drop_subset k1 p1 (hsub x (List.drop_subset k2 p2 hx)))
      · exact hp1l x (List.take_subset k1 p1 hx)
      · exact hp1l x (List.drop_subset k1 p1 (hsub x (List.take_subset k2 p2 hx)))

/-- C4: for every label list, the train, validation and test index lists the
two-stage split of generate_datasets produces are pairwise disjoint and
together exhaust the label rows, whatever shuffled orders the two sklearn
calls draw. -/
theorem generate_datasets_partition (l : List ℕ) (t : ℚ) (p1 p2 : List ℕ)
    (hnd : l.Nodup) (h1 : p1.Perm l)
    (h2 : p2.Perm (train_test_split l t p1).1) :
    (generate_datasets l t p1 p2).1.Disjoint (generate_datasets l t p1 p2).2.1 ∧
    (generate_datasets l t p1 p2).1.Disjoint (generate_datasets l t p1 p2).2.2 ∧
    (generate_datasets l t p1 p2).2.1.Disjoint (generate_datasets l t p1 p2).2.2 ∧
    ∀ x, x ∈ l ↔ (x ∈ (generate_datasets l t p1 p2).1 ∨
      x ∈ (generate_datasets l t p1 p2).2.1 ∨
      x ∈ (generate_datasets l t p1 p2).2.2) :=
  two_stage_partition l p1 p2 (testCount t l.length)
    (testCount t (p1.drop (testCount t l.length)).length) hnd h1 h2

/-- Witness for C4 on a four-element label list with t = 1/4. -/
theorem generate_datasets_partition_witness :
    (generate_datasets [0, 1, 2, 3] (1/4 : ℚ) [0, 1, 2, 3] [1, 2, 3]).1.Disjoint
      (generate_datasets [0, 1, 2, 3] (1/4 : ℚ) [0, 1, 2, 3] [1, 2, 3]).2.1 ∧
    (generate_datasets [0, 1, 2, 3] (1/4 : ℚ) [0, 1, 2, 3] [1, 2, 3]).1.Disjoint
      (generate_datasets [0, 1, 2, 3] (1/4 : ℚ) [0, 1, 2, 3] [1, 2, 3]).2.2 ∧
    (generate_datasets [0, 1, 2, 3] (1/4 : ℚ) [0, 1, 2, 3] [1, 2, 3]).2.1.Disjoint
      (generate_datasets [0, 1, 2, 3] (1/4 : ℚ) [0, 1, 2, 3] [1, 2, 3]).2.2 ∧
    ∀ x, x ∈ [0, 1, 2, 3] ↔
      (x ∈ (generate_datasets [0, 1, 2, 3] (1/4 : ℚ) [0, 1, 2, 3] [1, 2, 3]).1 ∨
       x ∈ (generate_datasets [0, 1, 2, 3] (1/4 : ℚ) [0, 1, 2, 3] [1, 2, 3]).2.1 ∨
       x ∈ (generate_datasets [0, 1, 2, 3] (1/4 : ℚ) [0, 1, 2, 3] [1, 2, 3]).2.2) :=
  generate_datasets_partition [0, 1, 2, 3] (1/4) [0, 1, 2, 3] [1, 2, 3]
    (by decide) (by decide)
    (by simp [train_test_split, testCount])

/-- C5 counterexample: on 20 labels with test fraction 1/2 (identity
shuffles), the two-stage split yields validation 10, test 5 and train 5,
while the claim predicts test of about t times N = 10 and train of about
(1 - 2 t) times N = 0; both are off by 5, far beyond any rounding. -/
theorem split_sizes_counterexample :
    (generate_datasets (List.range 20) (1/2 : ℚ) (List.range 20)
        (List.drop 10 (List.range 20))).2.1.length = 10 ∧
    (generate_datasets (List.range 20) (1/2 : ℚ) (List.range 20)
        (List.drop 10 (List.range 20))).2.2.length = 5 ∧
    (generate_datasets (List.range 20) (1/2 : ℚ) (List.range 20)
        (List.drop 10 (List.range 20))).1.length = 5 ∧
    ¬(|(5 : ℚ) - (1/2) * 20| ≤ 1) ∧
    ¬(|(5 : ℚ) - (1 - 2 * (1/2)) * 20| ≤ 1) := by
  have h10 : Int.toNat 10 = 10 := by decide
  have h5 : Int.toNat 5 = 5 := by decide
  refine ⟨?_, ?_, ?_, by rw [abs_sub_comm]; norm_num, by rw [abs_sub_comm]; norm_num⟩ <;>
    · show (List.length _) = _
      norm_num [generate_datasets, train_test_split, testCount, h10, h5]

/-- C5 amended: validation is within 1 of t times N, but the test subset is
within 1 of t (1 - t) N (not t N) and the train subset within 2 of
(1 - t) squared N (not (1 - 2 t) N), because the second split takes its
fraction from the remainder left after removing validation. -/
theorem split_sizes_amended (l : List ℕ) (t : ℚ) (p1 p2 : List ℕ)
    (h1 : p1.Perm l) (h2 : p2.Perm (train_test_split l t p1).1)
    (ht0 : 0 ≤ t) (ht1 : t ≤ 1) :
    |((generate_datasets l t p1 p2).2.1.length : ℚ) - t * l.length| < 1 ∧
    |((generate_datasets l t p1 p2).2.2.length : ℚ) - t * (1 - t) * l.length| < 1 ∧
    |((generate_datasets l t p1 p2).1.length : ℚ) - (1 - t) ^ 2 * l.length| < 2 := by
  have hp1len : p1.length = l.length := h1.length_eq
  have hgd : generate_datasets l t p1 p2 =
      (p2.drop (testCount t (p1.drop (testCount t l.length)).length),
       p1.take (testCount t l.length),
       p2.take (testCount t (p1.drop (testCount t l.length)).length)) := rfl
  rw [hgd]
  simp only [List.length_drop, hp1len]
  set n := l.length with hn
  set k1 := testCount t n with hk1def
  set k2 := testCount t (n - k1) with hk2def
  have hp2len : p2.length = n - k1 := by
    have h3 := h2.length_eq
    simp only [train_test_split] at h3
    rw [List.length_drop, hp1len] at h3
    exact h3
  -- integer values of the two ceiling counts
  have hnn1 : (0 : ℚ) ≤ t * (n : ℚ) := mul_nonneg ht0 (Nat.cast_nonneg n)
  have hk1z : ((k1 : ℕ) : ℤ) = ⌈t * (n : ℚ)⌉ := by
    rw [hk1def]
    unfold testCount
    rw [Int.toNat_of_nonneg (Int.ceil_nonneg hnn1)]
  have hnn2 : (0 : ℚ) ≤ t * ((n - k1 : ℕ) : ℚ) := mul_nonneg ht0 (Nat.cast_nonneg _)
  have hk2z : ((k2 : ℕ) : ℤ) = ⌈t * ((n - k1 : ℕ) : ℚ)⌉ := by
    rw [hk2def]
    unfold testCount
    rw [Int.toNat_of_nonneg (Int.ceil_nonneg hnn2)]
  -- bounds on k1
  have hk1a : t * (n : ℚ) ≤ (k1 : ℚ) := by
    have h4 := Int.le_ceil (t * (n : ℚ))
    rw [← hk1z] at h4
    exact_mod_cast h4
  have hk1b : (k1 : ℚ) < t * (n : ℚ) + 1 := by
    have h4 := Int.ceil_lt_add_one (t * (n : ℚ))
    rw [← hk1z] at h4
    exact_mod_cast h4
  have hk1n : k1 ≤ n := by
    have h5 : t * (n : ℚ) ≤ ((n : ℤ) : ℚ) := by
      push_cast
      nlinarith [Nat.cast_nonneg (α := ℚ) n]
    have h6 : ⌈t * (n : ℚ)⌉ ≤ (n : ℤ) := Int.ceil_le.mpr h5
    rw [← hk1z] at h6
    exact_mod_cast h6
  -- bounds on k2
  have hMcast : ((n - k1 : ℕ) : ℚ) = (n : ℚ) - (k1 : ℚ) := by
    rw [Nat.cast_sub hk1n]
  have hk2a : t * ((n : ℚ) - (k1 : ℚ)) ≤ (k2 : ℚ) := by
    have h4 := Int.le_ceil (t * ((n - k1 : ℕ) : ℚ))
    rw [← hk2z] at h4
    rw [hMcast] at h4
    exact_mod_cast h4
  have hk2b : (k2 : ℚ) < t * ((n : ℚ) - (k1 : ℚ)) + 1 := by
    have h4 := Int.ceil_lt_add_one (t * ((n - k1 : ℕ) : ℚ))
    rw [← hk2z] at h4
    rw [hMcast] at h4
    exact_mod_cast h4
  have hk2n : k2 ≤ n - k1 := by
    have h5 : t * ((n - k1 : ℕ) : ℚ) ≤ (((n - k1 : ℕ) : ℤ) : ℚ) := by
      push_cast
      nlinarith [Nat.cast_nonneg (α := ℚ) (n - k1)]
    have h6 : ⌈t * ((n - k1 : ℕ) : ℚ)⌉ ≤ ((n - k1 : ℕ) : ℤ) := Int.ceil_le.mpr h5
    rw [← hk2z] at h6
    exact_mod_cast h6
  -- the three subset lengths
  have hvalen : (p1.take k1).length = k1 := by
    rw [List.length_take, hp1len]
    omega
  have htelen : (p2.take k2).length = k2 := by
    rw [List.length_take, hp2len]
    omega
  rw [hvalen, htelen, hp2len]
  have htrcast : ((n - k1 - k2 : ℕ) : ℚ) = (n : ℚ) - (k1 : ℚ) - (k2 : ℚ) := by
    rw [Nat.cast_sub (by omega), Nat.cast_sub hk1n]
  rw [htrcast]
  have hN0 : (0 : ℚ) ≤ (n : ℚ) := Nat.cast_nonneg n
  have hK20 : (0 : ℚ) ≤ (k2 : ℚ) := Nat.cast_nonneg k2
  have h1t : (0 : ℚ) ≤ 1 - t := by linarith
  have hM1 : (n : ℚ) - (k1 : ℚ) ≤ (1 - t) * n := by linarith
  have hM2 : (1 - t) * (n : ℚ) - 1 < (n : ℚ) - (k1 : ℚ) := by linarith
  have hu1 : t * ((n : ℚ) - k1) ≤ t * ((1 - t) * n) :=
    mul_le_mul_of_nonneg_left hM1 ht0
  have hl1 : t * ((1 - t) * (n : ℚ) - 1) ≤ t * ((n : ℚ) - k1) :=
    mul_le_mul_of_nonneg_left (le_of_lt hM2) ht0
  have hu2 : (1 - t) * ((n : ℚ) - k1) ≤ (1 - t) * ((1 - t) * n) :=
    mul_le_mul_of_nonneg_left hM1 h1t
  have hl2 : (1 - t) * ((1 - t) * (n : ℚ) - 1) ≤ (1 - t) * ((n : ℚ) - k1) :=
    mul_le_mul_of_nonneg_left (le_of_lt hM2) h1t
  refine ⟨?_, ?_, ?_⟩
  · rw [abs_lt]
    constructor <;> linarith
  · rw [abs_lt]
    rcases eq_or_lt_of_le ht1 with rfl | htlt
    · constructor <;> linarith
    · constructor
      · linarith
      · linarith
  · rw [abs_lt]
    constructor
    · linarith
    · linarith

/-- Witness for the amended C5 statement on eight labels with t = 1/4. -/
theorem split_sizes_amended_witness :
    |((generate_datasets [0, 1, 2, 3, 4, 5, 6, 7] (1/4 : ℚ) [0, 1, 2, 3, 4, 5, 6, 7]
        [2, 3, 4, 5, 6, 7]).2.1.length : ℚ) -
        (1/4) * ([0, 1, 2, 3, 4, 5, 6, 7] : List ℕ).length| < 1 ∧
    |((generate_datasets [0, 1, 2, 3, 4, 5, 6, 7] (1/4 : ℚ) [0, 1, 2, 3, 4, 5, 6, 7]
        [2, 3, 4, 5, 6, 7]).2.2.length : ℚ) -
        (1/4) * (1 - 1/4) * ([0, 1, 2, 3, 4, 5, 6, 7] : List ℕ).length| < 1 ∧
    |((generate_datasets [0, 1, 2, 3, 4, 5, 6, 7] (1/4 : ℚ) [0, 1, 2, 3, 4, 5, 6, 7]
        [2, 3, 4, 5, 6, 7]).1.length : ℚ) -
        (1 - 1/4) ^ 2 * ([0, 1, 2, 3, 4, 5, 6, 7] : List ℕ).length| < 2 :=
  split_sizes_amended [0, 1, 2, 3, 4, 5, 6, 7] (1/4) [0, 1, 2, 3, 4, 5, 6, 7]
    [2, 3, 4, 5, 6, 7] (by decide)
    (by
      have hcount : testCount ((4 : ℚ)⁻¹) 8 = 2 := by
        norm_num [testCount]
        rfl
      simp [train_test_split, hcount])
    (by norm_num) (by norm_num)
